import Mathlib

set_option maxRecDepth 20000

/-!
Verification of the tak2msc relay (john-belstner/tak2msc).

The Python sources are shallowly embedded below:
* `calculate_digest`, `is_cot_template` (src/python/phase2/tak2mm.py and
  tak2msc-nogui.py; identical in both files),
* the CoT mailbox deposit logic of the cotXmlListener threads (tak2mm.py /
  tak2msc-nogui.py reject-if-occupied, tak2msc.py GUI overwrite),
* the crash-relevant fragments of the listener loops and of the template
  watcher loop.

Lines of a document are Lean `String`s carrying their trailing newline,
exactly as produced by Python `readlines()`.  Python's `in` substring test,
`str.replace`, `str.split()` and `'\n'`-splitting are modelled charwise, and
`hashlib.md5(...).hexdigest().upper()` is a full MD5 implementation over
`Nat` byte lists.
-/

/-- Boolean test: `pat` matches the leading characters of `s`. -/
def leadsList : List Char → List Char → Bool
  | [], _ => true
  | _ :: _, [] => false
  | a :: as, b :: bs => a == b && leadsList as bs

/-- Boolean substring occurrence test on character lists (Python `in`). -/
def occursIn : List Char → List Char → Bool
  | pat, [] => pat.isEmpty
  | pat, c :: cs => leadsList pat (c :: cs) || occursIn pat cs

/-- Python `pat in s` on strings. -/
def hasSub (pat s : String) : Bool := occursIn pat.data s.data

/-- Python `line.replace('\n', ' ')` (single-character pattern: a charwise map). -/
def replaceNl (s : String) : String :=
  ⟨s.data.map fun c => if c == '\n' then ' ' else c⟩

/-- The whitespace characters recognized by Python `str.split()` on ASCII text. -/
def isPyWS (c : Char) : Bool :=
  c == ' ' || c == '\t' || c == '\n' || c == '\r' || c == '\x0b' || c == '\x0c'

/-- Helper of `normalizeWS`: Python `str.split()` (split on whitespace runs,
dropping empty components); `cur` is the reversed current word. -/
def pyWordsAux : List Char → List Char → List (List Char)
  | cur, [] => if cur.isEmpty then [] else [cur.reverse]
  | cur, c :: cs =>
    if isPyWS c then
      if cur.isEmpty then pyWordsAux [] cs else cur.reverse :: pyWordsAux [] cs
    else pyWordsAux (c :: cur) cs

/-- Python `' '.join(words)`. -/
def joinSp : List (List Char) → List Char
  | [] => []
  | [w] => w
  | w :: ws => w ++ ' ' :: joinSp ws

/-- Python `' '.join(s.split())`: whitespace runs collapsed to single spaces,
leading and trailing whitespace removed. -/
def normalizeWS (s : String) : String := ⟨joinSp (pyWordsAux [] s.data)⟩

/-- Python `s.split('\n')` on character lists (keeps empty components). -/
def splitNlChars : List Char → List (List Char)
  | [] => [[]]
  | c :: cs =>
    match splitNlChars cs with
    | [] => [[]]
    | w :: ws => if c == '\n' then [] :: w :: ws else (c :: w) :: ws

/-- Python `data_string.split('\n')`. -/
def pySplitNl (s : String) : List String := (splitNlChars s.data).map fun l => ⟨l⟩

/-! ## MD5 (`hashlib.md5(bytes(s, 'utf-8')).hexdigest().upper()`) -/

/-- Reduction modulo `2 ^ 32`. -/
def m32 (x : Nat) : Nat := x % 4294967296

/-- Bitwise complement within 32 bits (argument below `2 ^ 32`). -/
def not32 (x : Nat) : Nat := 4294967295 - x

/-- 32-bit left rotation. -/
def rotl32 (x c : Nat) : Nat := ((x <<< c) ||| (x >>> (32 - c))) &&& 4294967295

/-- The 64 MD5 sine-derived round constants. -/
def md5K : List Nat :=
  [3614090360, 3905402710, 606105819, 3250441966, 4118548399, 1200080426,
   2821735955, 4249261313, 1770035416, 2336552879, 4294925233, 2304563134,
   1804603682, 4254626195, 2792965006, 1236535329, 4129170786, 3225465664,
   643717713, 3921069994, 3593408605, 38016083, 3634488961, 3889429448,
   568446438, 3275163606, 4107603335, 1163531501, 2850285829, 4243563512,
   1735328473, 2368359562, 4294588738, 2272392833, 1839030562, 4259657740,
   2763975236, 1272893353, 4139469664, 3200236656, 681279174, 3936430074,
   3572445317, 76029189, 3654602809, 3873151461, 530742520, 3299628645,
   4096336452, 1126891415, 2878612391, 4237533241, 1700485571, 2399980690,
   4293915773, 2240044497, 1873313359, 4264355552, 2734768916, 1309151649,
   4149444226, 3174756917, 718787259, 3951481745]

/-- The 64 MD5 per-round shift amounts. -/
def md5S : List Nat :=
  [7, 12, 17, 22, 7, 12, 17, 22, 7, 12, 17, 22, 7, 12, 17, 22,
   5, 9, 14, 20, 5, 9, 14, 20, 5, 9, 14, 20, 5, 9, 14, 20,
   4, 11, 16, 23, 4, 11, 16, 23, 4, 11, 16, 23, 4, 11, 16, 23,
   6, 10, 15, 21, 6, 10, 15, 21, 6, 10, 15, 21, 6, 10, 15, 21]

/-- The MD5 round mixing function (depends on the round quarter). -/
def md5F (i b c d : Nat) : Nat :=
  if i < 16 then (b &&& c) ||| (not32 b &&& d)
  else if i < 32 then (d &&& b) ||| (not32 d &&& c)
  else if i < 48 then b ^^^ c ^^^ d
  else c ^^^ (b ||| not32 d)

/-- The MD5 message-word index for round `i`. -/
def md5G (i : Nat) : Nat :=
  if i < 16 then i
  else if i < 32 then (5 * i + 1) % 16
  else if i < 48 then (3 * i + 5) % 16
  else (7 * i) % 16

/-- One MD5 round on the state `(a, b, c, d)` with schedule `M`. -/
def md5Round (M : List Nat) (st : Nat × Nat × Nat × Nat) (i : Nat) :
    Nat × Nat × Nat × Nat :=
  match st with
  | (a, b, c, d) =>
    let f := m32 (md5F i b c d + a + md5K.getD i 0 + M.getD (md5G i) 0)
    (d, m32 (b + rotl32 f (md5S.getD i 0)), b, c)

/-- Little-endian 32-bit word `j` of a 64-byte chunk. -/
def leWord (bs : List Nat) (j : Nat) : Nat :=
  bs.getD (4 * j) 0 ||| (bs.getD (4 * j + 1) 0 <<< 8) |||
    (bs.getD (4 * j + 2) 0 <<< 16) ||| (bs.getD (4 * j + 3) 0 <<< 24)

/-- Process one 64-byte chunk. -/
def md5Chunk (chunk : List Nat) (st : Nat × Nat × Nat × Nat) :
    Nat × Nat × Nat × Nat :=
  let M := (List.range 16).map (leWord chunk)
  let r := (List.range 64).foldl (md5Round M) st
  match st, r with
  | (a0, b0, c0, d0), (a, b, c, d) =>
    (m32 (a0 + a), m32 (b0 + b), m32 (c0 + c), m32 (d0 + d))

/-- Process `n` chunks of 64 bytes. -/
def md5Blocks : Nat → List Nat → Nat × Nat × Nat × Nat → Nat × Nat × Nat × Nat
  | 0, _, st => st
  | n + 1, bs, st => md5Blocks n (bs.drop 64) (md5Chunk (bs.take 64) st)

/-- MD5 padding: `0x80`, zeros to 56 mod 64, then the 64-bit little-endian
bit length. -/
def md5Pad (msg : List Nat) : List Nat :=
  let len := msg.length
  let z := (120 - (len + 1) % 64) % 64
  let bitLen := (len * 8) % 18446744073709551616
  msg ++ (128 :: List.replicate z 0) ++
    (List.range 8).map fun i => (bitLen >>> (8 * i)) &&& 255

/-- Uppercase hexadecimal digit. -/
def hexUDigit (n : Nat) : Char := "0123456789ABCDEF".data.getD n '0'

/-- Uppercase hex rendering of a 32-bit word, least-significant byte first
(MD5 digest byte order). -/
def wordHexLE (w : Nat) : List Char :=
  [w &&& 255, (w >>> 8) &&& 255, (w >>> 16) &&& 255, (w >>> 24) &&& 255].foldr
    (fun b acc => hexUDigit (b / 16) :: hexUDigit (b % 16) :: acc) []

/-- Uppercase-hex MD5 of a byte list. -/
def md5BytesHex (msg : List Nat) : String :=
  let p := md5Pad msg
  match md5Blocks (p.length / 64) p (1732584193, 4023233417, 2562383102, 271733878) with
  | (a, b, c, d) => ⟨wordHexLE a ++ wordHexLE b ++ wordHexLE c ++ wordHexLE d⟩

/-- UTF-8 encoding of one code point. -/
def utf8Enc (n : Nat) : List Nat :=
  if n < 128 then [n]
  else if n < 2048 then [192 ||| (n >>> 6), 128 ||| (n &&& 63)]
  else if n < 65536 then
    [224 ||| (n >>> 12), 128 ||| ((n >>> 6) &&& 63), 128 ||| (n &&& 63)]
  else
    [240 ||| (n >>> 18), 128 ||| ((n >>> 12) &&& 63),
     128 ||| ((n >>> 6) &&& 63), 128 ||| (n &&& 63)]

/-- UTF-8 bytes of a character list (Python `bytes(s, 'utf-8')`). -/
def utf8Bytes : List Char → List Nat
  | [] => []
  | c :: cs => utf8Enc c.toNat ++ utf8Bytes cs

/-- `hashlib.md5(bytes(s, 'utf-8')).hexdigest().upper()`. -/
def md5HexUpper (s : String) : String := md5BytesHex (utf8Bytes s.data)

/-! ## The template composer (`calculate_digest`) -/

/-- The sentinel substring tested by `'BT\n' in lines[i]`. -/
def btMark : String := "BT\n"

/-- The blank-remarks placeholder marker (the `GENTEXT` remarks prefix
followed by a lone dash and the double-slash terminator). -/
def remarksMark : String := "GENTEXT/REMARKS/-//"

/-- The digest placeholder marker `'[DIGEST:'`. -/
def digestMark : String := "[DIGEST:"

/-- The line written over a matched placeholder:
`'GENTEXT/REMARKS/' + cotString + '//' + '\n'`. -/
def remarksWrap (cotString : String) : String :=
  "GENTEXT/REMARKS/" ++ cotString ++ "//" ++ "\n"

/-- The loop state of `calculate_digest`. -/
structure DigestState where
  startOfString : Bool
  endOfString : Bool
  pastClassifier : Bool
  bigString : String
deriving DecidableEq

/-- Loop state at entry of `calculate_digest`. -/
def digestInit : DigestState := ⟨false, false, false, ""⟩

/-- One iteration of the `calculate_digest` loop: the updated state and the
(possibly rewritten) line `lines[i]`.  This mirrors the Python `if`/`elif`
chain literally. -/
def digestStep (cotString : String) (st : DigestState) (line : String) :
    DigestState × String :=
  if !st.startOfString && !st.endOfString then
    if hasSub btMark line then ({ st with startOfString := true }, line)
    else (st, line)
  else if st.startOfString && !st.endOfString && !st.pastClassifier then
    ({ st with pastClassifier := true }, line)
  else if st.startOfString && !st.endOfString && st.pastClassifier then
    if hasSub btMark line then ({ st with endOfString := true }, line)
    else if hasSub remarksMark line then
      let newLine := remarksWrap cotString
      ({ st with bigString := st.bigString ++ replaceNl newLine }, newLine)
    else ({ st with bigString := st.bigString ++ replaceNl line }, line)
  else if st.startOfString && st.endOfString then
    if hasSub digestMark line then
      let big := normalizeWS st.bigString
      ({ st with bigString := big },
        "[DIGEST:" ++ md5HexUpper big ++ "]" ++ "\n")
    else (st, line)
  else (st, line)

/-- The `calculate_digest` loop over a list of lines. -/
def digestRun (cotString : String) (st : DigestState) :
    List String → DigestState × List String
  | [] => (st, [])
  | l :: ls =>
    let r := digestStep cotString st l
    let q := digestRun cotString r.1 ls
    (q.1, r.2 :: q.2)

/-- `calculate_digest(lines, cotString)` from tak2mm.py lines 97-129 and
tak2msc-nogui.py lines 68-100 (the two copies are identical). -/
def calculate_digest (lines : List String) (cotString : String) : List String :=
  (digestRun cotString digestInit lines).2

/-- Loop state of `calculate_digest` just before line `i` is processed. -/
def digestStateAt (cotString : String) (lines : List String) (i : Nat) :
    DigestState :=
  (digestRun cotString digestInit (lines.take i)).1

/-- Line `i` sits strictly inside the digested span: the scan has seen the
start sentinel and the classifier but not yet the end sentinel. -/
def inSpanInterior (cotString : String) (lines : List String) (i : Nat) : Bool :=
  let st := digestStateAt cotString lines i
  st.startOfString && !st.endOfString && st.pastClassifier

/-- Line `i` lies after the end sentinel of the digested span. -/
def afterSpanEnd (cotString : String) (lines : List String) (i : Nat) : Bool :=
  let st := digestStateAt cotString lines i
  st.startOfString && st.endOfString

/-- Concatenation of lines with each newline replaced by a space, in the
order the `calculate_digest` loop appends them to `bigString`. -/
def joinRep : List String → String
  | [] => ""
  | l :: ls => replaceNl l ++ joinRep ls

/-- Modelled from the spec: the canonical single-line string of a span —
"build a canonical single-line string by replacing each span line's trailing
newline with a space and collapsing runs of whitespace" (spec section 4.5),
with the span lines already carrying the substituted payload. -/
def specCanonical (spanLines : List String) : String :=
  normalizeWS (joinRep spanLines)

/-! ## CoT event mailbox deposits -/

/-- `'parent_callsign='`, the Point-Dropper classification marker. -/
def PD_EVENT_TYPE : String := "parent_callsign="

/-- `'type="a-f-G-U-C'`, the Position (SA) classification marker. -/
def SA_EVENT_TYPE : String := "type=\"a-f-G-U-C"

/-- `'<event version="2.0" '`, the event-envelope recognition marker. -/
def EVENT_HEADER : String := "<event version=\"2.0\" "

/-- Deposit logic of tak2mm.py lines 164-169 and tak2msc-nogui.py lines
158-163: the slot pair is `(pointDropper_event, myPosition_event)` and a
slot is written only when it currently holds `''`. -/
def cotDeposit (pd sa line : String) : String × String :=
  if hasSub PD_EVENT_TYPE line && pd == "" then (line, sa)
  else if hasSub SA_EVENT_TYPE line && sa == "" then (pd, line)
  else (pd, sa)

/-- Deposit logic of tak2msc.py lines 461-466 (GUI variant): the matching
`StringVar` is set unconditionally, overwriting any pending event. -/
def cotDepositGui (pd sa line : String) : String × String :=
  if hasSub PD_EVENT_TYPE line then (line, sa)
  else if hasSub SA_EVENT_TYPE line then (pd, line)
  else (pd, sa)

/-- Fold of successive deposits through the tak2mm/nogui listener. -/
def depositAll (ds : List String) (st : String × String) : String × String :=
  ds.foldl (fun st l => cotDeposit st.1 st.2 l) st

/-- Fold of successive deposits through the tak2msc GUI listener. -/
def depositAllGui (ds : List String) (st : String × String) : String × String :=
  ds.foldl (fun st l => cotDepositGui st.1 st.2 l) st

/-- Last element with default (delivered value under an overwrite policy). -/
def lastD (d : String) : List String → String
  | [] => d
  | [x] => x
  | _ :: x :: xs => lastD d (x :: xs)

/-! ## Listener-thread crash behaviour -/

/-- The datagram-handling body of `cotXmlListener` (tak2mm.py lines 153-169,
tak2msc-nogui.py lines 147-163) for one received `data_string`, with the
thread's mailbox slots `(pd, sa)`.  `none` models an uncaught exception:
`xml[1]` raises `IndexError` when the split has fewer than two components,
and the surrounding `try` only catches `socket.timeout`. -/
def cotXmlIteration (pd sa dataString : String) : Option (String × String) :=
  if !hasSub EVENT_HEADER dataString then some (pd, sa)
  else
    match (pySplitNl dataString).get? 1 with
    | none => none
    | some x1 => some (cotDeposit pd sa x1)

/-- The command dispatch of `cpListener` (tak2mm.py lines 242-259) for one
parsed record.  `none` models an uncaught exception: the `'data'` branch
evaluates `COT_EVENT_HEADER in payload_data_from_cp`, and the name
`COT_EVENT_HEADER` is defined nowhere in tak2mm.py, so reaching that branch
raises `NameError`, which no enclosing handler catches. -/
def cpDispatch (command : String) : Option Unit :=
  if command == "status" then some ()
  else if command == "config" then some ()
  else if command == "ack" then some ()
  else if command == "data" then none
  else some ()

/-! ## Template watcher -/

/-- `is_cot_template(lines)` from tak2mm.py lines 81-92 / tak2msc-nogui.py
lines 53-64: a flag scan for the subject marker and the blank-remarks
marker. -/
def is_cot_template (lines : List String) : Bool :=
  let flags := lines.foldl
    (fun fl l => (fl.1 || hasSub "SUBJ/COTXML//" l, fl.2 || hasSub remarksMark l))
    (false, false)
  flags.1 && flags.2

/-- Outcome of one polling iteration of the tak2mm template listener:
the held template lines, whether the examined file was deleted, and whether
the `while started` loop proceeds to another iteration. -/
structure WatcherOutcome where
  heldLines : List String
  fileDeleted : Bool
  keepsPolling : Bool
deriving DecidableEq

/-- One iteration of `templateListener` (tak2mm.py lines 281-303) on the
hand-off directory contents `dirFiles` (each file given by its lines) with
currently held lines `held`.  On an invalid template the code runs
`os.remove`, clears the globals, and then executes `break`, which leaves the
polling loop, so `keepsPolling` is `false` on that path. -/
def templateListenerIteration (dirFiles : List (List String))
    (held : List String) : WatcherOutcome :=
  if dirFiles.length > 0 && held.length == 0 then
    match dirFiles with
    | [] => ⟨held, false, true⟩
    | first :: _ =>
      if is_cot_template first then ⟨first, false, true⟩
      else ⟨[], true, false⟩
  else ⟨held, false, true⟩

/-! ## Structural lemmas about the `calculate_digest` loop -/

theorem digestRun_length (cot : String) :
    ∀ (ls : List String) (st : DigestState),
      ((digestRun cot st ls).2).length = ls.length := by
  intro ls
  induction ls with
  | nil => intro st; rfl
  | cons l ls ih =>
    intro st
    simp [digestRun, ih]

theorem digestRun_append (cot : String) :
    ∀ (a b : List String) (st : DigestState),
      digestRun cot st (a ++ b) =
        ((digestRun cot (digestRun cot st a).1 b).1,
          (digestRun cot st a).2 ++ (digestRun cot (digestRun cot st a).1 b).2) := by
  intro a
  induction a with
  | nil => intro b st; simp [digestRun]
  | cons l a ih =>
    intro b st
    simp [digestRun, ih]

theorem getD_append_len (xs : List String) (y : String) (ys : List String)
    (d : String) : (xs ++ y :: ys).getD xs.length d = y := by
  induction xs with
  | nil => rfl
  | cons x xs ih => simpa using ih

theorem digestRun_getD (cot : String) (lines : List String) (i : Nat)
    (h : i < lines.length) :
    (calculate_digest lines cot).getD i "" =
      (digestStep cot (digestStateAt cot lines i) (lines.getD i "")).2 := by
  have h1 : lines.drop i = lines.getD i "" :: lines.drop (i + 1) := by
    rw [List.getD_eq_getElem lines "" h]
    exact List.drop_eq_getElem_cons h
  have hsplit : lines = lines.take i ++ lines.getD i "" :: lines.drop (i + 1) := by
    conv_lhs => rw [← List.take_append_drop i lines]
    rw [h1]
  have hlen : ((digestRun cot digestInit (lines.take i)).2).length = i := by
    rw [digestRun_length, List.length_take]
    omega
  have hexp : calculate_digest lines cot =
      (digestRun cot digestInit (lines.take i)).2 ++
        (digestStep cot (digestStateAt cot lines i) (lines.getD i "")).2 ::
        (digestRun cot
          (digestStep cot (digestStateAt cot lines i) (lines.getD i "")).1
          (lines.drop (i + 1))).2 := by
    conv_lhs => rw [show calculate_digest lines cot =
      calculate_digest (lines.take i ++ lines.getD i "" :: lines.drop (i + 1)) cot
      from by rw [← hsplit]]
    unfold calculate_digest
    rw [digestRun_append]
    rfl
  rw [hexp]
  have hfin := getD_append_len (digestRun cot digestInit (lines.take i)).2
    (digestStep cot (digestStateAt cot lines i) (lines.getD i "")).2
    (digestRun cot
      (digestStep cot (digestStateAt cot lines i) (lines.getD i "")).1
      (lines.drop (i + 1))).2 ""
  rw [hlen] at hfin
  exact hfin

/-- Every line of the output is the input line unchanged, the wrapped payload
(at a placeholder line in the span interior), or a freshly filled digest line
(at a digest-marker line after the end sentinel). -/
theorem digestStep_out (cot : String) (st : DigestState) (l : String) :
    (digestStep cot st l).2 = l ∨
    (st.startOfString = true ∧ st.endOfString = false ∧ st.pastClassifier = true ∧
      hasSub btMark l = false ∧ hasSub remarksMark l = true ∧
      (digestStep cot st l).2 = remarksWrap cot) ∨
    (st.startOfString = true ∧ st.endOfString = true ∧ hasSub digestMark l = true ∧
      (digestStep cot st l).2 =
        "[DIGEST:" ++ md5HexUpper (normalizeWS st.bigString) ++ "]" ++ "\n") := by
  obtain ⟨s, e, p, B⟩ := st
  cases s <;> cases e <;> cases p <;>
    simp only [digestStep, Bool.not_true, Bool.not_false, Bool.true_and,
      Bool.false_and, Bool.and_true, Bool.and_false, if_true, if_false] <;>
    first
      | (left; rfl)
      | (cases hbt : hasSub btMark l <;> simp [hbt] <;>
          cases hrem : hasSub remarksMark l <;> simp [hrem])
      | (cases hdig : hasSub digestMark l <;> simp [hdig])

/-! ## Evaluation of single loop steps on known states -/

theorem digestStep_preBt (cot B l : String) (h : hasSub btMark l = false) :
    digestStep cot ⟨false, false, false, B⟩ l = (⟨false, false, false, B⟩, l) := by
  simp [digestStep, h]

theorem digestStep_bt1 (cot B l : String) (h : hasSub btMark l = true) :
    digestStep cot ⟨false, false, false, B⟩ l = (⟨true, false, false, B⟩, l) := by
  simp [digestStep, h]

theorem digestStep_cls (cot B l : String) :
    digestStep cot ⟨true, false, false, B⟩ l = (⟨true, false, true, B⟩, l) := by
  simp [digestStep]

theorem digestStep_mid (cot B l : String) (h1 : hasSub btMark l = false)
    (h2 : hasSub remarksMark l = false) :
    digestStep cot ⟨true, false, true, B⟩ l =
      (⟨true, false, true, B ++ replaceNl l⟩, l) := by
  simp [digestStep, h1, h2]

theorem digestStep_rem (cot B l : String) (h1 : hasSub btMark l = false)
    (h2 : hasSub remarksMark l = true) :
    digestStep cot ⟨true, false, true, B⟩ l =
      (⟨true, false, true, B ++ replaceNl (remarksWrap cot)⟩, remarksWrap cot) := by
  simp [digestStep, h1, h2]

theorem digestStep_bt2 (cot B l : String) (h : hasSub btMark l = true) :
    digestStep cot ⟨true, false, true, B⟩ l = (⟨true, true, true, B⟩, l) := by
  simp [digestStep, h]

theorem digestStep_dig (cot B l : String) (h : hasSub digestMark l = true) :
    digestStep cot ⟨true, true, true, B⟩ l =
      (⟨true, true, true, normalizeWS B⟩,
        "[DIGEST:" ++ md5HexUpper (normalizeWS B) ++ "]" ++ "\n") := by
  simp [digestStep, h]

theorem digestStep_post (cot B l : String) (p : Bool)
    (h : hasSub digestMark l = false) :
    digestStep cot ⟨true, true, p, B⟩ l = (⟨true, true, p, B⟩, l) := by
  cases p <;> simp [digestStep, h]

/-! ## Evaluation of whole runs over homogeneous segments -/

theorem digestRun_preBt (cot B : String) :
    ∀ (ls : List String), (∀ l ∈ ls, hasSub btMark l = false) →
      digestRun cot ⟨false, false, false, B⟩ ls = (⟨false, false, false, B⟩, ls) := by
  intro ls
  induction ls with
  | nil => intro _; rfl
  | cons l ls ih =>
    intro h
    have hl := h l (List.mem_cons_self l ls)
    have hls : ∀ x ∈ ls, hasSub btMark x = false :=
      fun x hx => h x (List.mem_cons_of_mem l hx)
    simp [digestRun, digestStep_preBt cot B l hl, ih hls]

theorem digestRun_mid (cot : String) :
    ∀ (ls : List String) (B : String),
      (∀ l ∈ ls, hasSub btMark l = false ∧ hasSub remarksMark l = false) →
      digestRun cot ⟨true, false, true, B⟩ ls =
        (⟨true, false, true, B ++ joinRep ls⟩, ls) := by
  intro ls
  induction ls with
  | nil => intro B _; simp [digestRun, joinRep]
  | cons l ls ih =>
    intro B h
    have hl := h l (List.mem_cons_self l ls)
    have hls : ∀ x ∈ ls, hasSub btMark x = false ∧ hasSub remarksMark x = false :=
      fun x hx => h x (List.mem_cons_of_mem l hx)
    simp [digestRun, digestStep_mid cot B l hl.1 hl.2, ih (B ++ replaceNl l) hls,
      joinRep, String.append_assoc]

theorem digestRun_post (cot : String) (p : Bool) :
    ∀ (ls : List String) (B : String),
      (∀ l ∈ ls, hasSub digestMark l = false) →
      digestRun cot ⟨true, true, p, B⟩ ls = (⟨true, true, p, B⟩, ls) := by
  intro ls
  induction ls with
  | nil => intro B _; rfl
  | cons l ls ih =>
    intro B h
    have hl := h l (List.mem_cons_self l ls)
    have hls : ∀ x ∈ ls, hasSub digestMark x = false :=
      fun x hx => h x (List.mem_cons_of_mem l hx)
    simp [digestRun, digestStep_post cot B l p hl, ih B hls]

theorem joinRep_append (a b : List String) :
    joinRep (a ++ b) = joinRep a ++ joinRep b := by
  induction a with
  | nil => simp [joinRep]
  | cons l a ih => simp [joinRep, ih, String.append_assoc]

/-- C1.  In a template with a start sentinel, a following classifier line, a
single blank-remarks placeholder inside the span, an end sentinel, and a
single digest-placeholder line after it, `calculate_digest` substitutes the
payload into the placeholder and rewrites the digest line to the digest
marker filled with the uppercase hexadecimal MD5 of the canonical span
string (`specCanonical`), every other line being preserved. -/
theorem calculate_digest_round_trip
    (cot b1 cls rem b2 dig : String) (pre mid1 mid2 post1 post2 : List String)
    (hpre : ∀ l ∈ pre, hasSub btMark l = false)
    (hb1 : hasSub btMark b1 = true)
    (hmid1 : ∀ l ∈ mid1, hasSub btMark l = false ∧ hasSub remarksMark l = false)
    (hrem1 : hasSub btMark rem = false)
    (hrem2 : hasSub remarksMark rem = true)
    (hmid2 : ∀ l ∈ mid2, hasSub btMark l = false ∧ hasSub remarksMark l = false)
    (hb2 : hasSub btMark b2 = true)
    (hpost1 : ∀ l ∈ post1, hasSub digestMark l = false)
    (hdig : hasSub digestMark dig = true)
    (hpost2 : ∀ l ∈ post2, hasSub digestMark l = false) :
    calculate_digest
        (pre ++ b1 :: cls :: (mid1 ++ rem :: (mid2 ++ b2 :: (post1 ++ dig :: post2))))
        cot
      = pre ++ b1 :: cls :: (mid1 ++ remarksWrap cot ::
          (mid2 ++ b2 :: (post1 ++
            ("[DIGEST:" ++
              md5HexUpper (specCanonical (mid1 ++ remarksWrap cot :: mid2)) ++
              "]" ++ "\n") :: post2))) := by
  unfold calculate_digest
  simp only [digestInit]
  rw [digestRun_append, digestRun_preBt cot "" pre hpre]
  simp only [digestRun, digestStep_bt1 cot "" b1 hb1, digestStep_cls cot "" cls]
  rw [digestRun_append, digestRun_mid cot mid1 "" hmid1]
  simp only [digestRun, digestStep_rem cot ("" ++ joinRep mid1) rem hrem1 hrem2]
  rw [digestRun_append, digestRun_mid cot mid2 _ hmid2]
  simp only [digestRun,
    digestStep_bt2 cot _ b2 hb2]
  rw [digestRun_append, digestRun_post cot true post1 _ hpost1]
  simp only [digestRun, digestStep_dig cot _ dig hdig]
  rw [digestRun_post cot true post2 _ hpost2]
  simp only [specCanonical, joinRep_append, joinRep]
  simp [String.append_assoc]

/-! ## Flag evolution of the scan -/

theorem DigestState_eta (st : DigestState) :
    st = ⟨st.startOfString, st.endOfString, st.pastClassifier, st.bigString⟩ := rfl

theorem digestStep_e_mono (cot : String) (st : DigestState) (l : String)
    (h : st.endOfString = true) :
    ((digestStep cot st l).1).endOfString = true := by
  obtain ⟨s, e, p, B⟩ := st
  simp only at h
  subst h
  cases s <;> cases p <;> simp [digestStep] <;> split <;> simp

theorem digestRun_e_mono (cot : String) :
    ∀ (ls : List String) (st : DigestState), st.endOfString = true →
      ((digestRun cot st ls).1).endOfString = true := by
  intro ls
  induction ls with
  | nil => intro st h; exact h
  | cons l ls ih =>
    intro st h
    simp only [digestRun]
    exact ih _ (digestStep_e_mono cot st l h)

theorem digestRun_split_state (cot : String) (lines : List String) (i : Nat) :
    (digestRun cot digestInit lines).1 =
      (digestRun cot (digestStateAt cot lines i) (lines.drop i)).1 := by
  conv_lhs => rw [← List.take_append_drop i lines]
  rw [digestRun_append]
  rfl

theorem digestStateAt_e_false (cot : String) (lines : List String)
    (hfin : ((digestRun cot digestInit lines).1).endOfString = false) (i : Nat) :
    ((digestStateAt cot lines i)).endOfString = false := by
  by_contra h
  have h2 : ((digestStateAt cot lines i)).endOfString = true := by
    cases hh : ((digestStateAt cot lines i)).endOfString
    · exact absurd hh h
    · rfl
  have := digestRun_e_mono cot (lines.drop i) (digestStateAt cot lines i) h2
  rw [← digestRun_split_state] at this
  rw [hfin] at this
  exact Bool.false_ne_true this

/-- Index of the first line containing the sentinel substring (list length if
none does). -/
def firstBtIdx : List String → Nat
  | [] => 0
  | l :: ls => if hasSub btMark l then 0 else firstBtIdx ls + 1

theorem digestRun_prefix_frame (cot : String) :
    ∀ (lines : List String) (j : Nat), j ≤ firstBtIdx lines + 1 →
      ((digestRun cot digestInit lines).2).getD j "" = lines.getD j "" := by
  intro lines
  induction lines with
  | nil => intro j _; rfl
  | cons l ls ih =>
    intro j hj
    cases hbt : hasSub btMark l with
    | true =>
      have hj1 : j ≤ 1 := by
        simp [firstBtIdx, hbt] at hj; omega
      have hstep : digestStep cot digestInit l = (⟨true, false, false, ""⟩, l) :=
        digestStep_bt1 cot "" l hbt
      simp only [digestRun, hstep]
      match j, hj1 with
      | 0, _ => rfl
      | 1, _ =>
        simp only [List.getD]
        cases ls with
        | nil => rfl
        | cons l2 ls2 =>
          simp [digestRun, digestStep_cls cot "" l2]
    | false =>
      have hstep : digestStep cot digestInit l = (digestInit, l) :=
        digestStep_preBt cot "" l hbt
      simp only [digestRun, hstep]
      match j with
      | 0 => rfl
      | j' + 1 =>
        have : j' ≤ firstBtIdx ls + 1 := by
          simp [firstBtIdx, hbt] at hj; omega
        simpa using ih j' this

/-- C10.  `calculate_digest` preserves the number of lines; a line can only
change if it is a blank-remarks placeholder line in the span interior or a
digest-marker line after the end sentinel; and every line up to and
including the first start-sentinel line and the classifier line after it is
returned unchanged. -/
theorem calculate_digest_frame (lines : List String) (cot : String) (i : Nat)
    (h1 : ¬(inSpanInterior cot lines i = true ∧
      hasSub remarksMark (lines.getD i "") = true))
    (h2 : ¬(afterSpanEnd cot lines i = true ∧
      hasSub digestMark (lines.getD i "") = true)) :
    (calculate_digest lines cot).length = lines.length ∧
    (calculate_digest lines cot).getD i "" = lines.getD i "" ∧
    ∀ j, j ≤ firstBtIdx lines + 1 →
      (calculate_digest lines cot).getD j "" = lines.getD j "" := by
  refine ⟨digestRun_length cot lines digestInit, ?_,
    fun j hj => digestRun_prefix_frame cot lines j hj⟩
  by_cases hi : i < lines.length
  · rw [digestRun_getD cot lines i hi]
    rcases digestStep_out cot (digestStateAt cot lines i) (lines.getD i "") with
      h | h | h
    · exact h
    · exact absurd ⟨by simp [inSpanInterior, h.1, h.2.1, h.2.2.1], h.2.2.2.2.1⟩ h1
    · exact absurd ⟨by simp [afterSpanEnd, h.1, h.2.1], h.2.2.1⟩ h2
  · have hlen : (calculate_digest lines cot).length = lines.length :=
      digestRun_length cot lines digestInit
    rw [List.getD_eq_default, List.getD_eq_default] <;> omega

theorem calculate_digest_frame_witness :
    (calculate_digest ["BT\n", "c\n", "X\n", "BT\n", "[DIGEST:]\n"] "p").length =
      (["BT\n", "c\n", "X\n", "BT\n", "[DIGEST:]\n"] : List String).length ∧
    (calculate_digest ["BT\n", "c\n", "X\n", "BT\n", "[DIGEST:]\n"] "p").getD 2 "" =
      (["BT\n", "c\n", "X\n", "BT\n", "[DIGEST:]\n"] : List String).getD 2 "" :=
  ⟨(calculate_digest_frame ["BT\n", "c\n", "X\n", "BT\n", "[DIGEST:]\n"] "p" 2
      (by decide) (by decide)).1,
   (calculate_digest_frame ["BT\n", "c\n", "X\n", "BT\n", "[DIGEST:]\n"] "p" 2
      (by decide) (by decide)).2.1⟩

/-- C6 (amended).  Every line in the span interior matching the blank-remarks
placeholder (and not a sentinel line) is rewritten to the wrapped payload —
not only the first one. -/
theorem calculate_digest_replaces_all_placeholders (lines : List String)
    (cot : String) (i : Nat) (hi : i < lines.length)
    (h1 : inSpanInterior cot lines i = true)
    (h2 : hasSub remarksMark (lines.getD i "") = true)
    (h3 : hasSub btMark (lines.getD i "") = false) :
    (calculate_digest lines cot).getD i "" = remarksWrap cot := by
  rw [digestRun_getD cot lines i hi]
  simp only [inSpanInterior, Bool.and_eq_true, Bool.not_eq_true'] at h1
  obtain ⟨⟨hs, he⟩, hp⟩ := h1
  have heta := DigestState_eta (digestStateAt cot lines i)
  rw [hs, he, hp] at heta
  rw [heta,
    digestStep_rem cot ((digestStateAt cot lines i)).bigString (lines.getD i "")
      h3 h2]

theorem calculate_digest_replaces_all_placeholders_witness :
    (calculate_digest
      ["BT\n", "c\n", "GENTEXT/REMARKS/-//\n", "GENTEXT/REMARKS/-//\n", "BT\n",
       "[DIGEST:]\n"] "p").getD 3 "" = remarksWrap "p" :=
  calculate_digest_replaces_all_placeholders
    ["BT\n", "c\n", "GENTEXT/REMARKS/-//\n", "GENTEXT/REMARKS/-//\n", "BT\n",
     "[DIGEST:]\n"] "p" 3 (by decide) (by decide) (by decide) (by decide)

/-- C6 (counterexample to the claim as stated): with two placeholder lines in
the span, the second one does not keep its original content — it is rewritten
to the wrapped payload as well. -/
theorem calculate_digest_second_placeholder_rewritten :
    (calculate_digest
      ["BT\n", "c\n", "GENTEXT/REMARKS/-//\n", "GENTEXT/REMARKS/-//\n", "BT\n",
       "[DIGEST:]\n"] "p").getD 3 "" ≠ "GENTEXT/REMARKS/-//\n" ∧
    (calculate_digest
      ["BT\n", "c\n", "GENTEXT/REMARKS/-//\n", "GENTEXT/REMARKS/-//\n", "BT\n",
       "[DIGEST:]\n"] "p").getD 3 "" = "GENTEXT/REMARKS/p//\n" := by
  constructor
  · decide
  · decide

/-- C8 (amended).  If the scan finds a start sentinel but never an end
sentinel, `calculate_digest` still returns (line count preserved), every line
not matching the blank-remarks placeholder — in particular every
digest-placeholder line not doubling as a placeholder — keeps its original
content, and no digest is ever filled in: each output line is either the
input line or the wrapped payload. -/
theorem calculate_digest_no_end_sentinel (lines : List String) (cot : String)
    (hs : ((digestRun cot digestInit lines).1).startOfString = true)
    (he : ((digestRun cot digestInit lines).1).endOfString = false) :
    (calculate_digest lines cot).length = lines.length ∧
    (∀ i, hasSub remarksMark (lines.getD i "") = false →
      (calculate_digest lines cot).getD i "" = lines.getD i "") ∧
    (∀ i, (calculate_digest lines cot).getD i "" = lines.getD i "" ∨
      (calculate_digest lines cot).getD i "" = remarksWrap cot) := by
  have hef := digestStateAt_e_false cot lines he
  refine ⟨digestRun_length cot lines digestInit, ?_, ?_⟩
  · intro i hrem
    by_cases hi : i < lines.length
    · rw [digestRun_getD cot lines i hi]
      rcases digestStep_out cot (digestStateAt cot lines i) (lines.getD i "") with
        h | h | h
      · exact h
      · exact absurd ((hrem.symm.trans h.2.2.2.2.1)) Bool.false_ne_true
      · exact absurd (((hef i).symm.trans h.2.1)) Bool.false_ne_true
    · have hlen : (calculate_digest lines cot).length = lines.length :=
        digestRun_length cot lines digestInit
      rw [List.getD_eq_default, List.getD_eq_default] <;> omega
  · intro i
    by_cases hi : i < lines.length
    · rw [digestRun_getD cot lines i hi]
      rcases digestStep_out cot (digestStateAt cot lines i) (lines.getD i "") with
        h | h | h
      · exact Or.inl h
      · exact Or.inr h.2.2.2.2.2
      · exact absurd (((hef i).symm.trans h.2.1)) Bool.false_ne_true
    · have hlen : (calculate_digest lines cot).length = lines.length :=
        digestRun_length cot lines digestInit
      left
      rw [List.getD_eq_default, List.getD_eq_default] <;> omega

theorem calculate_digest_no_end_sentinel_witness :
    (calculate_digest ["BT\n", "c\n", "X [DIGEST:old]\n"] "p").length =
      (["BT\n", "c\n", "X [DIGEST:old]\n"] : List String).length ∧
    (calculate_digest ["BT\n", "c\n", "X [DIGEST:old]\n"] "p").getD 2 "" =
      (["BT\n", "c\n", "X [DIGEST:old]\n"] : List String).getD 2 "" :=
  ⟨(calculate_digest_no_end_sentinel ["BT\n", "c\n", "X [DIGEST:old]\n"] "p"
      (by decide) (by decide)).1,
   (calculate_digest_no_end_sentinel ["BT\n", "c\n", "X [DIGEST:old]\n"] "p"
      (by decide) (by decide)).2.1 2 (by decide)⟩

/-- C8 (counterexample to the claim as stated): in a document with a start
sentinel and no end sentinel, a digest-placeholder line that also matches the
blank-remarks placeholder does not keep its original content — the remarks
substitution rewrites it. -/
theorem calculate_digest_dual_marker_line_rewritten :
    hasSub btMark
      ((["BT\n", "c\n", "GENTEXT/REMARKS/-// [DIGEST:x]\n"] : List String).getD 0 "")
      = true ∧
    ((digestRun "p" digestInit
      ["BT\n", "c\n", "GENTEXT/REMARKS/-// [DIGEST:x]\n"]).1).endOfString = false ∧
    hasSub digestMark
      ((["BT\n", "c\n", "GENTEXT/REMARKS/-// [DIGEST:x]\n"] : List String).getD 2 "")
      = true ∧
    (calculate_digest ["BT\n", "c\n", "GENTEXT/REMARKS/-// [DIGEST:x]\n"] "p").getD 2 ""
      ≠ (["BT\n", "c\n", "GENTEXT/REMARKS/-// [DIGEST:x]\n"] : List String).getD 2 "" := by
  refine ⟨by decide, by decide, by decide, by decide⟩

/-! ## Substring decomposition lemmas (used for idempotence of composition) -/

theorem occursIn_of_leads (pat s : List Char) (h : leadsList pat s = true) :
    occursIn pat s = true := by
  cases s with
  | nil =>
    cases pat with
    | nil => rfl
    | cons p ps => simp [leadsList] at h
  | cons c cs => simp [occursIn, h]

theorem leads_self_append : ∀ (p r : List Char), leadsList p (p ++ r) = true := by
  intro p
  induction p with
  | nil => intro r; rfl
  | cons a as ih => intro r; simp [leadsList, ih]

theorem hasSub_self_append (pat r : String) : hasSub pat (pat ++ r) = true := by
  unfold hasSub
  rw [show (pat ++ r).data = pat.data ++ r.data from rfl]
  exact occursIn_of_leads _ _ (leads_self_append pat.data r.data)

theorem leadsList_of_append (pat : List Char) :
    ∀ (c d : List Char), leadsList pat (c ++ d) = true →
      leadsList pat c = true ∨
      (c.length < pat.length ∧ pat.take c.length = c ∧
        leadsList (pat.drop c.length) d = true) := by
  induction pat with
  | nil => intro c d _; left; rfl
  | cons p ps ih =>
    intro c d h
    cases c with
    | nil =>
      right
      exact ⟨Nat.succ_pos _, rfl, by simpa using h⟩
    | cons x xs =>
      simp only [List.cons_append, leadsList, Bool.and_eq_true] at h
      obtain ⟨hpx, hrest⟩ := h
      have hpx2 : p = x := by simpa using hpx
      rcases ih xs d hrest with h1 | ⟨h2a, h2b, h2c⟩
      · left
        simp [leadsList, hpx, h1]
      · right
        refine ⟨by simpa using h2a, ?_, by simpa using h2c⟩
        simp [List.take, hpx2, h2b]

theorem occursIn_append (pat : List Char) :
    ∀ (a b : List Char), occursIn pat (a ++ b) = true →
      occursIn pat a = true ∨ occursIn pat b = true ∨
      ∃ k t, 0 < k ∧ k < pat.length ∧ t ++ pat.take k = a ∧
        leadsList (pat.drop k) b = true := by
  intro a
  induction a with
  | nil => intro b h; right; left; simpa using h
  | cons x xs ih =>
    intro b h
    simp only [List.cons_append, occursIn, Bool.or_eq_true] at h
    rcases h with h | h
    · rcases leadsList_of_append pat (x :: xs) b h with h1 | ⟨h2a, h2b, h2c⟩
      · left
        exact occursIn_of_leads _ _ h1
      · right; right
        exact ⟨(x :: xs).length, [], Nat.succ_pos _, h2a, by simpa using h2b, h2c⟩
    · rcases ih b h with h1 | h1 | ⟨k, t, hk0, hk1, ht, hl⟩
      · left
        simp [occursIn, h1]
      · right; left; exact h1
      · right; right
        exact ⟨k, x :: t, hk0, hk1, by simp [ht], hl⟩

/-- The composed remarks line contains no sentinel substring as long as the
payload contains none: the fixed wrapper pieces cannot complete one across
the junctions. -/
theorem btMark_not_in_wrap (cot : String) (h : hasSub btMark cot = false) :
    hasSub btMark (remarksWrap cot) = false := by
  have hdata : (remarksWrap cot).data =
      "GENTEXT/REMARKS/".data ++ (cot.data ++ "//\n".data) := by
    rw [show (remarksWrap cot).data =
      (("GENTEXT/REMARKS/".data ++ cot.data) ++ "//".data) ++ "\n".data from rfl]
    simp [List.append_assoc]
  unfold hasSub at h ⊢
  rw [hdata]
  cases hx : occursIn btMark.data
    ("GENTEXT/REMARKS/".data ++ (cot.data ++ "//\n".data)) with
  | false => rfl
  | true =>
    exfalso
    rcases occursIn_append btMark.data _ _ hx with h1 | h1 | ⟨k, t, hk0, hk1, ht, hl⟩
    · exact absurd h1 (by decide)
    · rcases occursIn_append btMark.data _ _ h1 with h2 | h2 | ⟨k, t, hk0, hk1, ht, hl⟩
      · exact absurd (h.symm.trans h2) Bool.false_ne_true
      · exact absurd h2 (by decide)
      · have hk12 : k = 1 ∨ k = 2 := by
          have : btMark.data.length = 3 := rfl
          omega
        rcases hk12 with rfl | rfl
        · exact absurd hl (by decide)
        · exact absurd hl (by decide)
    · have hk12 : k = 1 ∨ k = 2 := by
        have : btMark.data.length = 3 := rfl
        omega
      rcases hk12 with rfl | rfl
      · rw [show btMark.data.take 1 = ['B'] from rfl] at ht
        have hlast := congrArg List.getLast? ht
        rw [List.getLast?_concat] at hlast
        rw [show ("GENTEXT/REMARKS/".data).getLast? = some '/' from rfl] at hlast
        simp at hlast
      · rw [show btMark.data.take 2 = ['B', 'T'] from rfl] at ht
        have ht2 : (t ++ ['B']) ++ ['T'] = "GENTEXT/REMARKS/".data := by
          simpa [List.append_assoc] using ht
        have hlast := congrArg List.getLast? ht2
        rw [List.getLast?_concat] at hlast
        rw [show ("GENTEXT/REMARKS/".data).getLast? = some '/' from rfl] at hlast
        simp at hlast

/-! ## Idempotence of the composition step -/

theorem digestStep_idem (cot : String)
    (hw : hasSub btMark (remarksWrap cot) = false) (st : DigestState)
    (l : String) :
    digestStep cot st (digestStep cot st l).2 = digestStep cot st l := by
  obtain ⟨s, e, p, B⟩ := st
  cases s with
  | false =>
    cases e with
    | false => cases hbt : hasSub btMark l <;> simp [digestStep, hbt]
    | true => simp [digestStep]
  | true =>
    cases e with
    | false =>
      cases p with
      | false => simp [digestStep]
      | true =>
        cases hbt : hasSub btMark l with
        | true => simp [digestStep, hbt]
        | false =>
          cases hrem : hasSub remarksMark l with
          | false => simp [digestStep, hbt, hrem]
          | true =>
            by_cases hww : hasSub remarksMark (remarksWrap cot) = true <;>
              simp [digestStep, hbt, hrem, hw, hww]
    | true =>
      cases hdig : hasSub digestMark l with
      | false => simp [digestStep, hdig]
      | true =>
        have hd2 : hasSub digestMark
            ("[DIGEST:" ++ md5HexUpper (normalizeWS B) ++ "]" ++ "\n") = true := by
          rw [String.append_assoc, String.append_assoc]
          exact hasSub_self_append digestMark _
        simp [digestStep, hdig, hd2]

theorem digestRun_idem (cot : String)
    (hw : hasSub btMark (remarksWrap cot) = false) :
    ∀ (ls : List String) (st : DigestState),
      digestRun cot st (digestRun cot st ls).2 = digestRun cot st ls := by
  intro ls
  induction ls with
  | nil => intro st; rfl
  | cons l ls ih =>
    intro st
    simp only [digestRun]
    rw [digestStep_idem cot hw st l]
    simp [ih (digestStep cot st l).1]

/-- C9 (amended).  Provided the payload does not contain the sentinel
substring, composition is idempotent: running `calculate_digest` again on
the already-composed document with the same payload reproduces it exactly
(in particular the digest line is identical).  Determinism of the pure
function gives the same-template-same-payload half of the claim. -/
theorem calculate_digest_idem (lines : List String) (cot : String)
    (hcot : hasSub btMark cot = false) :
    calculate_digest (calculate_digest lines cot) cot =
      calculate_digest lines cot := by
  have hw := btMark_not_in_wrap cot hcot
  unfold calculate_digest
  exact congrArg Prod.snd (digestRun_idem cot hw lines digestInit)

theorem calculate_digest_idem_witness :
    hasSub btMark "<event version=\"2.0\" type=\"a-f-G-U-C\"/>" = false ∧
    calculate_digest
        (calculate_digest
          ["BT\n", "c\n", "GENTEXT/REMARKS/-//\n", "BT\n", "[DIGEST:]\n"]
          "<event version=\"2.0\" type=\"a-f-G-U-C\"/>")
        "<event version=\"2.0\" type=\"a-f-G-U-C\"/>" =
      calculate_digest
        ["BT\n", "c\n", "GENTEXT/REMARKS/-//\n", "BT\n", "[DIGEST:]\n"]
        "<event version=\"2.0\" type=\"a-f-G-U-C\"/>" :=
  ⟨by decide,
   calculate_digest_idem
     ["BT\n", "c\n", "GENTEXT/REMARKS/-//\n", "BT\n", "[DIGEST:]\n"]
     "<event version=\"2.0\" type=\"a-f-G-U-C\"/>" (by decide)⟩

/-- C9 (counterexample to the claim as stated): for a payload containing the
sentinel substring, composing the composed output again with the same
payload yields a different digest line than the first composition. -/
theorem calculate_digest_not_idem_sentinel_payload :
    (calculate_digest
        (calculate_digest
          ["BT\n", "c\n", "GENTEXT/REMARKS/-//\n", "BT\n", "[DIGEST:]\n"]
          "xBT\nz") "xBT\nz").getD 4 "" ≠
      (calculate_digest
        ["BT\n", "c\n", "GENTEXT/REMARKS/-//\n", "BT\n", "[DIGEST:]\n"]
        "xBT\nz").getD 4 "" := by
  decide

theorem calculate_digest_round_trip_witness :
    calculate_digest
        (["FM STATION\n"] ++ "BT\n" :: "UNCLAS\n" ::
          (["SUBJ/COTXML//\n"] ++ "GENTEXT/REMARKS/-//\n" ::
            ([] ++ "BT\n" :: (["NNNN\n"] ++ "[DIGEST:]\n" :: []))))
        "<event version=\"2.0\" type=\"a-f-G-U-C\"/>"
      = ["FM STATION\n"] ++ "BT\n" :: "UNCLAS\n" ::
          (["SUBJ/COTXML//\n"] ++
            remarksWrap "<event version=\"2.0\" type=\"a-f-G-U-C\"/>" ::
            ([] ++ "BT\n" :: (["NNNN\n"] ++
              ("[DIGEST:" ++
                md5HexUpper (specCanonical
                  (["SUBJ/COTXML//\n"] ++
                    remarksWrap "<event version=\"2.0\" type=\"a-f-G-U-C\"/>" :: [])) ++
                "]" ++ "\n") :: []))) :=
  calculate_digest_round_trip "<event version=\"2.0\" type=\"a-f-G-U-C\"/>"
    "BT\n" "UNCLAS\n" "GENTEXT/REMARKS/-//\n" "BT\n" "[DIGEST:]\n"
    ["FM STATION\n"] ["SUBJ/COTXML//\n"] [] ["NNNN\n"] []
    (by decide) (by decide) (by decide) (by decide) (by decide) (by decide)
    (by decide) (by decide) (by decide) (by decide)

/-- C5 (amended).  After any run of lines without the sentinel substring, the
start-of-span flag of the scan equals the substring test `hasSub btMark` of
the next line, and the non-bare line "XBT\n" passes that test: sentinel
recognition is substring containment, not bare-line equality. -/
theorem sentinel_is_substring_match (cot b : String) (pre : List String)
    (hpre : ∀ l ∈ pre, hasSub btMark l = false) :
    ((digestRun cot digestInit (pre ++ [b])).1).startOfString = hasSub btMark b ∧
    hasSub btMark "XBT\n" = true := by
  refine ⟨?_, by decide⟩
  rw [digestRun_append]
  simp only [digestInit]
  rw [digestRun_preBt cot "" pre hpre]
  cases hbt : hasSub btMark b with
  | false => simp [digestRun, digestStep_preBt cot "" b hbt]
  | true => simp [digestRun, digestStep_bt1 cot "" b hbt]

theorem sentinel_is_substring_match_witness :
    ((digestRun "p" digestInit (["A\n"] ++ ["XBT\n"])).1).startOfString =
      hasSub btMark "XBT\n" ∧
    hasSub btMark "XBT\n" = true :=
  sentinel_is_substring_match "p" "XBT\n" ["A\n"] (by decide)

/-- C5 (counterexample to the claim as stated): a document whose only
sentinel-like line is "XBT\n" — not the bare text "BT" — still has a span
opened at that line: the scan is inside the span at index 2 and rewrites the
placeholder there. -/
theorem sentinel_not_bare_only :
    ("XBT\n" ≠ "BT\n" ∧ "XBT\n" ≠ "BT") ∧
    inSpanInterior "p" ["XBT\n", "c\n", "GENTEXT/REMARKS/-//\n"] 2 = true ∧
    (calculate_digest ["XBT\n", "c\n", "GENTEXT/REMARKS/-//\n"] "p").getD 2 "" =
      "GENTEXT/REMARKS/p//\n" := by decide

/-! ## Mailbox deposit helper lemmas -/

theorem cotDeposit_fst_of_ne (pd sa l : String) (h : pd ≠ "") :
    (cotDeposit pd sa l).1 = pd := by
  have hbe : (pd == "") = false := beq_eq_false_iff_ne.mpr h
  unfold cotDeposit
  rw [hbe]
  rw [if_neg (by simp)]
  split <;> rfl

theorem cotDeposit_snd_of_ne (pd sa l : String) (h : sa ≠ "") :
    (cotDeposit pd sa l).2 = sa := by
  have hbe : (sa == "") = false := beq_eq_false_iff_ne.mpr h
  unfold cotDeposit
  rw [hbe]
  split
  · rfl
  · rw [if_neg (by simp)]

theorem cotDepositGui_fst_of_pd (pd sa l : String)
    (h : hasSub PD_EVENT_TYPE l = true) :
    (cotDepositGui pd sa l).1 = l := by
  unfold cotDepositGui
  rw [h]
  simp

theorem pd_line_ne_empty (l : String) (h : hasSub PD_EVENT_TYPE l = true) :
    l ≠ "" := by
  intro he
  subst he
  exact absurd h (by decide)

theorem depositAll_pd_frozen :
    ∀ (ds : List String) (pd sa : String), pd ≠ "" →
      (depositAll ds (pd, sa)).1 = pd := by
  intro ds
  induction ds with
  | nil => intro pd sa _; rfl
  | cons d ds ih =>
    intro pd sa h
    show (depositAll ds (cotDeposit pd sa d)).1 = pd
    have hbe : (pd == "") = false := beq_eq_false_iff_ne.mpr h
    unfold cotDeposit
    rw [hbe]
    rw [if_neg (by simp)]
    split
    · exact ih pd d h
    · exact ih pd sa h

theorem depositAllGui_last_wins :
    ∀ (ds : List String) (pd sa : String),
      (∀ l ∈ ds, hasSub PD_EVENT_TYPE l = true) → ds ≠ [] →
      (depositAllGui ds (pd, sa)).1 = lastD "" ds := by
  intro ds
  induction ds with
  | nil => intro pd sa _ h; exact absurd rfl h
  | cons d ds ih =>
    intro pd sa hall hne
    cases ds with
    | nil =>
      show (cotDepositGui pd sa d).1 = lastD "" [d]
      rw [cotDepositGui_fst_of_pd pd sa d (hall d (by simp))]
      rfl
    | cons d2 ds2 =>
      show (depositAllGui (d2 :: ds2) (cotDepositGui pd sa d)).1 =
        lastD "" (d :: d2 :: ds2)
      have htail : ∀ l ∈ d2 :: ds2, hasSub PD_EVENT_TYPE l = true :=
        fun l hl => hall l (List.mem_cons_of_mem d hl)
      exact ih (cotDepositGui pd sa d).1 (cotDepositGui pd sa d).2 htail
        (List.cons_ne_nil d2 ds2)

theorem cotDepositGui_snd_of_sa (pd sa l : String)
    (h1 : hasSub PD_EVENT_TYPE l = false) (h2 : hasSub SA_EVENT_TYPE l = true) :
    (cotDepositGui pd sa l).2 = l := by
  unfold cotDepositGui
  rw [h1, h2]
  simp

theorem sa_line_ne_empty (l : String) (h : hasSub SA_EVENT_TYPE l = true) :
    l ≠ "" := by
  intro he
  subst he
  exact absurd h (by decide)

theorem depositAll_sa_frozen :
    ∀ (ds : List String) (pd sa : String), sa ≠ "" →
      (depositAll ds (pd, sa)).2 = sa := by
  intro ds
  induction ds with
  | nil => intro pd sa _; rfl
  | cons d ds ih =>
    intro pd sa h
    show (depositAll ds (cotDeposit pd sa d)).2 = sa
    have hbe : (sa == "") = false := beq_eq_false_iff_ne.mpr h
    unfold cotDeposit
    rw [hbe]
    split
    · exact ih d sa h
    · rw [if_neg (by simp)]
      exact ih pd sa h

theorem depositAllGui_sa_last_wins :
    ∀ (ds : List String) (pd sa : String),
      (∀ l ∈ ds, hasSub PD_EVENT_TYPE l = false ∧
        hasSub SA_EVENT_TYPE l = true) →
      ds ≠ [] → (depositAllGui ds (pd, sa)).2 = lastD "" ds := by
  intro ds
  induction ds with
  | nil => intro pd sa _ h; exact absurd rfl h
  | cons d ds ih =>
    intro pd sa hall hne
    cases ds with
    | nil =>
      show (cotDepositGui pd sa d).2 = lastD "" [d]
      rw [cotDepositGui_snd_of_sa pd sa d (hall d (by simp)).1
        (hall d (by simp)).2]
      rfl
    | cons d2 ds2 =>
      show (depositAllGui (d2 :: ds2) (cotDepositGui pd sa d)).2 =
        lastD "" (d :: d2 :: ds2)
      have htail : ∀ l ∈ d2 :: ds2, hasSub PD_EVENT_TYPE l = false ∧
          hasSub SA_EVENT_TYPE l = true :=
        fun l hl => hall l (List.mem_cons_of_mem d hl)
      exact ih (cotDepositGui pd sa d).1 (cotDepositGui pd sa d).2 htail
        (List.cons_ne_nil d2 ds2)

/-- C2 (amended).  In tak2mm/tak2msc-nogui a deposit stores only when the
category slot is empty — an occupied slot is never overwritten, for either
category — while in tak2msc (GUI) a deposit overwrites the classified
category's slot unconditionally: a Point-Dropper-classified event overwrites
the Point-Dropper slot, and a Position-classified event (SA marker, no
Point-Dropper marker) overwrites the Position slot, occupied or not. -/
theorem deposit_policies (pd sa line : String) :
    (pd ≠ "" → (cotDeposit pd sa line).1 = pd) ∧
    (sa ≠ "" → (cotDeposit pd sa line).2 = sa) ∧
    (hasSub PD_EVENT_TYPE line = true → (cotDepositGui pd sa line).1 = line) ∧
    (hasSub PD_EVENT_TYPE line = false → hasSub SA_EVENT_TYPE line = true →
      (cotDepositGui pd sa line).2 = line) :=
  ⟨cotDeposit_fst_of_ne pd sa line, cotDeposit_snd_of_ne pd sa line,
   cotDepositGui_fst_of_pd pd sa line, cotDepositGui_snd_of_sa pd sa line⟩

theorem deposit_policies_witness :
    (cotDeposit "OLD" "OLD2" "x parent_callsign=1").1 = "OLD" ∧
    (cotDeposit "OLD" "OLD2" "x parent_callsign=1").2 = "OLD2" ∧
    (cotDepositGui "OLD" "OLD2" "x parent_callsign=1").1 =
      "x parent_callsign=1" ∧
    (cotDepositGui "OLD" "OLD2"
        "<event version=\"2.0\" type=\"a-f-G-U-C\"/>").2 =
      "<event version=\"2.0\" type=\"a-f-G-U-C\"/>" :=
  ⟨(deposit_policies "OLD" "OLD2" "x parent_callsign=1").1 (by decide),
   (deposit_policies "OLD" "OLD2" "x parent_callsign=1").2.1 (by decide),
   (deposit_policies "OLD" "OLD2" "x parent_callsign=1").2.2.1 (by decide),
   (deposit_policies "OLD" "OLD2"
     "<event version=\"2.0\" type=\"a-f-G-U-C\"/>").2.2.2
     (by decide) (by decide)⟩

/-- C2 (counterexample to the claim as stated): in tak2msc.py lines 461-466
(a cited source of the claim) a deposit into an occupied slot of either
category replaces the pending event instead of leaving the slot unchanged. -/
theorem deposit_gui_overwrites_occupied :
    ("OLD" ≠ "" ∧
      (cotDepositGui "OLD" "" "x parent_callsign=1").1 ≠ "OLD") ∧
    ("OLD2" ≠ "" ∧
      (cotDepositGui "P" "OLD2"
        "<event version=\"2.0\" type=\"a-f-G-U-C\"/>").2 ≠ "OLD2") := by decide

/-- C3 (amended).  For two or more same-category deposits with no intervening
consume, in either category: in tak2mm/tak2msc-nogui the FIRST deposited
event of the category is the one left pending for delivery (later deposits
are dropped), while in tak2msc (GUI) the LAST deposited event is the one
left pending (earlier deposits are silently superseded).  `ds` is a sequence
of Point-Dropper-classified deposits, `es` a sequence of Position-classified
ones (SA marker, no Point-Dropper marker). -/
theorem deposit_sequence_retention (ds es : List String)
    (sa0 pd0 sa1 pd2 pd3 sa3 : String)
    (hall : ∀ l ∈ ds, hasSub PD_EVENT_TYPE l = true) (hne : ds ≠ [])
    (hallE : ∀ l ∈ es, hasSub PD_EVENT_TYPE l = false ∧
      hasSub SA_EVENT_TYPE l = true) (hneE : es ≠ []) :
    (depositAll ds ("", sa0)).1 = ds.headD "" ∧
    (depositAllGui ds (pd0, sa1)).1 = lastD "" ds ∧
    (depositAll es (pd2, "")).2 = es.headD "" ∧
    (depositAllGui es (pd3, sa3)).2 = lastD "" es := by
  refine ⟨?_, depositAllGui_last_wins ds pd0 sa1 hall hne, ?_,
    depositAllGui_sa_last_wins es pd3 sa3 hallE hneE⟩
  · cases ds with
    | nil => exact absurd rfl hne
    | cons d ds =>
      have hpd : hasSub PD_EVENT_TYPE d = true :=
        hall d (List.mem_cons_self d ds)
      have hfirst : cotDeposit "" sa0 d = (d, sa0) := by
        unfold cotDeposit
        rw [hpd]
        simp
      show (depositAll ds (cotDeposit "" sa0 d)).1 = (d :: ds).headD ""
      rw [hfirst]
      exact depositAll_pd_frozen ds d sa0 (pd_line_ne_empty d hpd)
  · cases es with
    | nil => exact absurd rfl hneE
    | cons e es =>
      have he := hallE e (List.mem_cons_self e es)
      have hfirst : cotDeposit pd2 "" e = (pd2, e) := by
        unfold cotDeposit
        rw [he.1, he.2]
        simp
      show (depositAll es (cotDeposit pd2 "" e)).2 = (e :: es).headD ""
      rw [hfirst]
      exact depositAll_sa_frozen es pd2 e (sa_line_ne_empty e he.2)

theorem deposit_sequence_retention_witness :
    (depositAll ["a parent_callsign=1", "b parent_callsign=2"] ("", "")).1 =
      (["a parent_callsign=1", "b parent_callsign=2"] : List String).headD "" ∧
    (depositAllGui ["a parent_callsign=1", "b parent_callsign=2"] ("", "")).1 =
      lastD "" ["a parent_callsign=1", "b parent_callsign=2"] ∧
    (depositAll
      ["<event version=\"2.0\" type=\"a-f-G-U-C\" uid=\"1\"/>",
       "<event version=\"2.0\" type=\"a-f-G-U-C\" uid=\"2\"/>"] ("", "")).2 =
      (["<event version=\"2.0\" type=\"a-f-G-U-C\" uid=\"1\"/>",
        "<event version=\"2.0\" type=\"a-f-G-U-C\" uid=\"2\"/>"] :
        List String).headD "" ∧
    (depositAllGui
      ["<event version=\"2.0\" type=\"a-f-G-U-C\" uid=\"1\"/>",
       "<event version=\"2.0\" type=\"a-f-G-U-C\" uid=\"2\"/>"] ("", "")).2 =
      lastD ""
        ["<event version=\"2.0\" type=\"a-f-G-U-C\" uid=\"1\"/>",
         "<event version=\"2.0\" type=\"a-f-G-U-C\" uid=\"2\"/>"] :=
  deposit_sequence_retention
    ["a parent_callsign=1", "b parent_callsign=2"]
    ["<event version=\"2.0\" type=\"a-f-G-U-C\" uid=\"1\"/>",
     "<event version=\"2.0\" type=\"a-f-G-U-C\" uid=\"2\"/>"]
    "" "" "" "" "" "" (by decide) (by decide) (by decide) (by decide)

/-- C3 (counterexample to the claim as stated): in tak2mm.py (a cited source
of the claim) the event left pending after two same-category deposits with no
intervening consume is the FIRST one, not the most recently deposited one —
in both categories. -/
theorem deposit_sequence_first_not_latest :
    ((depositAll ["a parent_callsign=1", "b parent_callsign=2"] ("", "")).1 =
        "a parent_callsign=1" ∧
      (depositAll ["a parent_callsign=1", "b parent_callsign=2"] ("", "")).1 ≠
        "b parent_callsign=2") ∧
    ((depositAll
        ["<event version=\"2.0\" type=\"a-f-G-U-C\" uid=\"1\"/>",
         "<event version=\"2.0\" type=\"a-f-G-U-C\" uid=\"2\"/>"] ("", "")).2 =
        "<event version=\"2.0\" type=\"a-f-G-U-C\" uid=\"1\"/>" ∧
      (depositAll
        ["<event version=\"2.0\" type=\"a-f-G-U-C\" uid=\"1\"/>",
         "<event version=\"2.0\" type=\"a-f-G-U-C\" uid=\"2\"/>"] ("", "")).2 ≠
        "<event version=\"2.0\" type=\"a-f-G-U-C\" uid=\"2\"/>") := by decide

/-- C4.  Two steady-state inputs named by the claim crash their listener
threads: a recognized single-line event datagram makes `xml[1]` raise
`IndexError` in `cotXmlListener`, and a control-channel record with command
`'data'` makes `cpListener` evaluate the undefined name `COT_EVENT_HEADER`
(`NameError`); neither exception is caught, so each thread's loop dies. -/
theorem listener_crash_inputs :
    hasSub EVENT_HEADER
      "<?xml version=\"1.0\" encoding=\"UTF-8\"?><event version=\"2.0\" type=\"a-f-G-U-C\"/>"
      = true ∧
    cotXmlIteration "" ""
      "<?xml version=\"1.0\" encoding=\"UTF-8\"?><event version=\"2.0\" type=\"a-f-G-U-C\"/>"
      = none ∧
    cpDispatch "data" = none := by decide

/-- C7.  On an invalid template (neither marker) the tak2mm template listener
deletes the file and holds nothing — it is never spliced or moved — but the
`break` statement ends the polling loop instead of resuming it; a valid
template is held with polling continuing. -/
theorem templateListener_invalid_file :
    is_cot_template ["RANDOM JUNK\n"] = false ∧
    templateListenerIteration [["RANDOM JUNK\n"]] [] = ⟨[], true, false⟩ ∧
    is_cot_template ["SUBJ/COTXML//\n", "GENTEXT/REMARKS/-//\n"] = true ∧
    templateListenerIteration [["SUBJ/COTXML//\n", "GENTEXT/REMARKS/-//\n"]] [] =
      ⟨["SUBJ/COTXML//\n", "GENTEXT/REMARKS/-//\n"], false, true⟩ := by decide
